import Mathlib

set_option maxRecDepth 4000
set_option maxHeartbeats 1000000
set_option linter.unusedVariables false

/-!
Verification development for the request-shaping and caching layer of a RAG helper
library (`utils/rag_func.py`): rate limiting, cache-key derivation and TTL policy for
embeddings and search results, result formatting, and the conversation policy
operations (classification, summarization, answer generation).

Modelling conventions:
* Wall-clock time is a linearly ordered commutative ring `T` (idealized real time;
  theorems hold in particular for `T = ℚ`, and concrete witnesses use `T = ℤ`).
* External collaborators (embedding provider, vector search provider, chat-completion
  provider, history store) are oracle parameters; their responses are inputs.
* The memcache collaborator is a time-indexed key-value store with TTL semantics.
* Serialization (`pickle.dumps`/`loads`) is modelled as the identity on a tagged value
  type `CVal`, and the md5 hex digest as an abstract function parameter: only its
  determinism is used by the properties below.
* Each operation returns, besides its value and updated state, the list of external
  effects (`Ev`) it performed, in order.
-/

/-- Python `str.strip()` whitespace class (ASCII). -/
def isPyWhitespace (c : Char) : Bool :=
  c = ' ' || c = '\t' || c = '\n' || c = '\r' || c = '\x0b' || c = '\x0c'

/-- Embedding of Python `str.strip()` (used at lines 76, 116, 162, 269, 300). -/
def pyStrip (s : String) : String :=
  ⟨((s.data.dropWhile isPyWhitespace).reverse.dropWhile isPyWhitespace).reverse⟩

/-- Embedding of `text.replace("\n", " ")` (line 76): the pattern is the single
character `'\n'`, so the replacement is characterwise. -/
def pyReplaceNl (s : String) : String :=
  ⟨s.data.map (fun c => if c = '\n' then ' ' else c)⟩

/-- Embedding of Python `str.upper()` (line 269); the labels compared are ASCII. -/
def pyUpper (s : String) : String := ⟨s.data.map Char.toUpper⟩

/-- Embedding of Python `sep.join(list)` (line 140). -/
def joinSep (sep : String) : List String → String
  | [] => ""
  | [s] => s
  | s :: rest => s ++ sep ++ joinSep sep rest

/-- Python truthiness fallback `x if x else 'None'` on an optional string
(lines 246, 287). -/
def pyStrOrNone : Option String → String
  | none => "None"
  | some s => if s = "" then "None" else s

/-- Decimal digit character, as rendered by Python number formatting. -/
def decDigit (d : ℕ) : Char :=
  if d = 0 then '0' else if d = 1 then '1' else if d = 2 then '2' else if d = 3 then '3'
  else if d = 4 then '4' else if d = 5 then '5' else if d = 6 then '6' else if d = 7 then '7'
  else if d = 8 then '8' else '9'

/-- Least-significant-first decimal digits of a natural number, with explicit fuel
so that the recursion is structural. -/
def decDigitsAux : ℕ → ℕ → List Char
  | 0, _ => []
  | fuel + 1, n => if n < 10 then [decDigit n] else decDigit (n % 10) :: decDigitsAux fuel (n / 10)

/-- Decimal digit string (most significant first) of a natural number. -/
def natDecStr (n : ℕ) : List Char := (decDigitsAux (n + 1) n).reverse

/-- Modelled from the source's f-string formatting (line 117): Python `str()` of an
int — decimal digits, with a leading minus sign for negative values. -/
def pyIntStr (i : ℤ) : String :=
  if i < 0 then ⟨'-' :: natDecStr i.natAbs⟩ else ⟨natDecStr i.natAbs⟩

/-- Decimal value of a least-significant-first digit list (verification helper,
inverse of `decDigitsAux`). -/
def decValRev : List Char → ℕ
  | [] => 0
  | c :: cs => (c.toNat - 48) + 10 * decValRev cs

/-- `EMBED_CACHE_TTL = int(24 * 3600)` (line 47). -/
def EMBED_CACHE_TTL : ℕ := 24 * 3600

/-- `SEARCH_CACHE_TTL = int(3600)` (line 48). -/
def SEARCH_CACHE_TTL : ℕ := 3600

/-- Normalization applied to a text before embedding (line 76). -/
def embedNormalize (text : String) : String := pyStrip (pyReplaceNl text)

/-- The embedding cache key (line 77): namespace prefix plus md5 hex digest of the
normalized text.  `md5hex` abstracts `hashlib.md5(...).hexdigest()`. -/
def embed_cache_key (md5hex : String → String) (text : String) : String :=
  "embed:" ++ md5hex (embedNormalize text)

/-- The search cache key (lines 116-117): namespace prefix (f-string evaluating to
`search:svc:` or `search:prd:`), md5 hex digest of the stripped query, then the
f-string `|top_k|skip_k` appended verbatim. -/
def search_cache_key (md5hex : String → String) (query : String) (top_k skip_k : ℤ)
    (service : Bool) : String :=
  (if service then "search:svc:" else "search:prd:") ++ md5hex (pyStrip query)
    ++ ("|" ++ pyIntStr top_k ++ "|" ++ pyIntStr skip_k)

/-- A cached value: the unpickled Python object, either an embedding vector or a
formatted result text. -/
inductive CVal where
  | vec (v : List ℚ)
  | txt (s : String)
deriving DecidableEq

/-- One memcache entry: key, pickled value, absolute expiry time. -/
structure CacheEntry (T : Type) where
  key : String
  val : CVal
  expiry : T
deriving DecidableEq

/-- The external memcache collaborator, as the list of its entries, latest set
first. -/
abbrev Cache (T : Type) := List (CacheEntry T)

/-- `mc_client.set(key, value, ttl)` at wall-clock time `now`. -/
def Cache.set {T : Type} [LinearOrderedCommRing T] (mc : Cache T) (k : String) (v : CVal)
    (ttl : ℕ) (now : T) : Cache T :=
  ⟨k, v, now + (ttl : T)⟩ :: mc

/-- `mc_client.get(key)` at wall-clock time `now`: the latest value set under the
key, unless its TTL has elapsed. -/
def Cache.get {T : Type} [LinearOrderedCommRing T] (mc : Cache T) (k : String) (now : T) :
    Option CVal :=
  match mc.find? (fun e => e.key == k) with
  | some e => if now < e.expiry then some e.val else none
  | none => none

/-- External effects performed by the operations, in program order. -/
inductive Ev where
  | acquireSec
  | acquireMin
  | chatCall (model : String) (system_prompt : String) (user_prompt : String)
  | embCall (model : String) (input : String)
  | searchCall (searchText : String) (knn : ℕ) (top : ℤ) (skip : ℤ) (svc : Bool)
  | cacheSet (key : String) (ttl : ℕ)
  | delHistory (user : String)
  | getDecide (user : String)
  | saveHistory (user : String) (role : String) (content : String) (decision : String)
deriving DecidableEq

/-- Model names read from the environment (lines 17-20). -/
structure Config where
  embedding_model : String
  chat_model : String
  classify_model : String
  summary_model : String

/-- Rate limiter state (lines 51-56).  The mutual-exclusion lock makes each
`acquire` atomic, so `acquire` is a transition on this state. -/
structure RateLimiter (T : Type) where
  max_calls : ℕ
  period : T
  calls : List T

/-- One `acquire()` (lines 58-66) entered at wall-clock time `now`: drop stale
entries, and if the remaining count has reached `max_calls`, sleep for
`period - (now - calls[0])` before recording.  Returns the new state and the
recorded timestamp; `none` models the `IndexError` raised by `calls[0]` when the
pruned list is empty (`max_calls = 0`), which leaves the pruned list in place and
records nothing.  Sleeping is idealized as exact, so the recorded time in the
full-window branch is `now + to_wait`. -/
def RateLimiter.acquire {T : Type} [LinearOrderedCommRing T] (rl : RateLimiter T) (now : T) :
    RateLimiter T × Option T :=
  let kept := rl.calls.filter fun t => decide (now - rl.period < t)
  if rl.max_calls ≤ kept.length then
    match kept with
    | [] => ({ rl with calls := kept }, none)
    | t0 :: _ =>
        let rec_t := now + (rl.period - (now - t0))
        ({ rl with calls := kept ++ [rec_t] }, some rec_t)
  else
    ({ rl with calls := kept ++ [now] }, some now)

/-- Number of recorded timestamps newer than `period` seconds at time `t`. -/
def windowCount {T : Type} [LinearOrderedCommRing T] (rl : RateLimiter T) (t : T) : ℕ :=
  (rl.calls.filter fun x => decide (t - rl.period < x)).length

/-- The wall-clock time at which an `acquire` entered at `now` records its call
(equal to `now` except in the full-window branch, where the thread sleeps). -/
def nextClock {T : Type} [LinearOrderedCommRing T] (rl : RateLimiter T) (now : T) : T :=
  match (rl.acquire now).2 with
  | some r => r
  | none => now

/-- Run a sequence of acquires; `clock` is the time of the latest completed
recording. -/
def runAcquires {T : Type} [LinearOrderedCommRing T] :
    RateLimiter T → T → List T → RateLimiter T × T
  | rl, clock, [] => (rl, clock)
  | rl, _, now :: rest => runAcquires (rl.acquire now).1 (nextClock rl now) rest

/-- Admissibility of a sequence of entry times: wall-clock time never runs
backward, so each `acquire` is entered no earlier than the previous recording. -/
def admissibleB {T : Type} [LinearOrderedCommRing T] :
    RateLimiter T → T → List T → Bool
  | _, _, [] => true
  | rl, clock, now :: rest =>
      decide (clock ≤ now) && admissibleB (rl.acquire now).1 (nextClock rl now) rest

/-- One row of a product-index search result, with the selected fields (line 135). -/
structure ProductRow where
  Product_Segment : String
  Product_Name : String
  Unique_Pros : String
  Benefit : String
  Condition : String
  Product_Description : String
  Product_URL : String
deriving DecidableEq

/-- One row of a service-index search result, with the selected fields (line 134). -/
structure ServiceRow where
  Service_Segment : String
  Service_Name : String
  Service_Detail : String
  Service_URL : String
deriving DecidableEq

/-- `print_results` (lines 91-101): the accumulating loop, seven labelled lines per
row, the URL line carrying a trailing newline. -/
def print_results (results : List ProductRow) : List String :=
  results.foldl
    (fun answer result =>
      answer ++ ["Product Segment: " ++ result.Product_Segment]
        ++ ["Product Name: " ++ result.Product_Name]
        ++ ["Unique Point: " ++ result.Unique_Pros]
        ++ ["Product Benefit: " ++ result.Benefit]
        ++ ["Product Condition: " ++ result.Condition]
        ++ ["Product Description: " ++ result.Product_Description]
        ++ ["URL: " ++ result.Product_URL ++ "\n"])
    []

/-- `print_results_service` (lines 103-110). -/
def print_results_service (results : List ServiceRow) : List String :=
  results.foldl
    (fun answer result =>
      answer ++ ["Service Segment: " ++ result.Service_Segment]
        ++ ["Service Name: " ++ result.Service_Name]
        ++ ["Service Detail: " ++ result.Service_Detail]
        ++ ["URL: " ++ result.Service_URL ++ "\n"])
    []

/-- The seven labelled lines contributed by one product row, in the fixed field
order (verification helper relating `print_results` to per-row blocks). -/
def productLines (result : ProductRow) : List String :=
  ["Product Segment: " ++ result.Product_Segment,
   "Product Name: " ++ result.Product_Name,
   "Unique Point: " ++ result.Unique_Pros,
   "Product Benefit: " ++ result.Benefit,
   "Product Condition: " ++ result.Condition,
   "Product Description: " ++ result.Product_Description,
   "URL: " ++ result.Product_URL ++ "\n"]

/-- The four labelled lines contributed by one service row, in the fixed field
order. -/
def serviceLines (result : ServiceRow) : List String :=
  ["Service Segment: " ++ result.Service_Segment,
   "Service Name: " ++ result.Service_Name,
   "Service Detail: " ++ result.Service_Detail,
   "URL: " ++ result.Service_URL ++ "\n"]

/-- `embed_text` (lines 73-89).  `emb` is the embedding provider
(`client.embeddings.create`), an oracle from the request input to the returned
vector.  Returns the value, the updated cache, and the effects performed. -/
def embed_text {T : Type} [LinearOrderedCommRing T] (cfg : Config)
    (md5hex : String → String) (emb : String → List ℚ) (text : String)
    (mc : Cache T) (now : T) : CVal × Cache T × List Ev :=
  let normalized := pyStrip (pyReplaceNl text)
  let key := "embed:" ++ md5hex normalized
  match mc.get key now with
  | some cached => (cached, mc, [])
  | none =>
      let embedding := emb normalized
      (CVal.vec embedding,
       mc.set key (CVal.vec embedding) EMBED_CACHE_TTL now,
       [Ev.embCall cfg.embedding_model normalized, Ev.cacheSet key EMBED_CACHE_TTL])

/-- `get_search_results` (lines 113-145).  `prodSearch`/`svcSearch` are the two
index clients' `search` calls (full-text string, vector query, top, skip), oracles
returning the result rows.  The vector query wraps the value produced by
`embed_text` with `k_nearest_neighbors=100`. -/
def get_search_results {T : Type} [LinearOrderedCommRing T] (cfg : Config)
    (md5hex : String → String) (emb : String → List ℚ)
    (prodSearch : String → CVal → ℤ → ℤ → List ProductRow)
    (svcSearch : String → CVal → ℤ → ℤ → List ServiceRow)
    (query : String) (top_k : ℤ) (skip_k : ℤ) (service : Bool)
    (mc : Cache T) (now : T) : CVal × Cache T × List Ev :=
  let key := search_cache_key md5hex query top_k skip_k service
  match mc.get key now with
  | some cached => (cached, mc, [])
  | none =>
      let er := embed_text cfg md5hex emb query mc now
      let vect := er.1
      let text :=
        if service then
          joinSep "=================\n" (print_results_service (svcSearch query vect top_k skip_k))
        else
          joinSep "=================\n" (print_results (prodSearch query vect top_k skip_k))
      (CVal.txt text,
       Cache.set er.2.1 key (CVal.txt text) SEARCH_CACHE_TTL now,
       er.2.2 ++ [Ev.searchCall query 100 top_k skip_k service,
                  Ev.cacheSet key SEARCH_CACHE_TTL])

/-- The external chat-history collaborator (`utils.chat_history_func`), over an
abstract store state `σ`; `T` is the timestamp type. -/
structure HistoryStore (T : Type) (σ : Type) where
  del_chat_history : σ → String → σ
  get_latest_decide : σ → String → String
  save_chat_history : σ → String → String → String → T → String → σ

/-- The summarization system prompt (line 152). -/
def summarize_system_prompt : String :=
  "You are a helpful assistant. Condense the user's conversation by selectively removing less important or redundant information. Prioritize preserving numeric details, specific names, exact wording, key facts, and recent messages. Avoid overly summarizing; keep the original details intact.,Respond concisely and not exceed 1000 tokens."

/-- `summarize_text` (lines 147-168).  `resp` is the chat-completion response
content, `timestamp` the Bangkok wall-clock reading of line 163.  Returns the
result, the final history-store state, and the effects in program order. -/
def summarize_text {T : Type} {σ : Type} (cfg : Config) (hs : HistoryStore T σ)
    (resp : String) (timestamp : T) (text : String) (max_chars : ℕ) (user_id : String)
    (h0 : σ) : String × σ × List Ev :=
  if text.length ≤ max_chars then (text, h0, [])
  else
    let summary := pyStrip resp
    let h1 := hs.del_chat_history h0 user_id
    let user_latest_decide := hs.get_latest_decide h1 user_id
    let h2 := hs.save_chat_history h1 user_id "assistant" summary timestamp user_latest_decide
    (summary, h2,
     [Ev.chatCall cfg.summary_model summarize_system_prompt text,
      Ev.delHistory user_id,
      Ev.getDecide user_id,
      Ev.saveHistory user_id "assistant" summary user_latest_decide])

/-- The retrieval-summarization system prompt (lines 172-182). -/
def summarize_context_system_prompt : String :=
  "You are an expert summarizer for a vector-based retrieval system. Your goal is to produce a concise, context-rich summary focused on the user's latest question. Include only details from the conversation history that are directly relevant to the new question. Omit irrelevant or off-topic content, and do not include URLs.\n\nEnsure you preserve exact wording for any product names or special terms (including those in asterisks, e.g., *ProductName*). Keep it short but detailed enough that someone reading this summary can address the user's latest question accurately.Respond concisely and within 180 tokens."

/-- The user message of `summarize_context` (lines 183-195), an f-string with a
trailing `.strip()`. -/
def summarize_context_text (new_question chat_history : String) : String :=
  pyStrip ("\n    Chat History: " ++ chat_history
    ++ "\n    Latest User Question: " ++ new_question
    ++ "\n\n    Instructions:\n    - Focus on the user’s new question and only summarize the parts of the chat that are relevant.\n    - If the new question refers to, for example, “the second insurance product,” then only include\n      the details needed about that second product, ignoring the rest.\n    - Preserve special terms or product names exactly as they appear (e.g., *ProductX*).\n    - Exclude URLs or disclaimers unless the user specifically wants them.\n    - Keep the summary concise but complete enough for follow-up vector-based retrieval.\n    \n    ")

/-- `summarize_context` (lines 170-207): prompt construction plus one chat call;
no rate-limiter acquisition and no history-store access. -/
def summarize_context (cfg : Config) (resp : String) (new_question chat_history : String) :
    String × List Ev :=
  (pyStrip resp,
   [Ev.chatCall cfg.summary_model summarize_context_system_prompt
      (summarize_context_text new_question chat_history)])

/-- The five known labels (line 270). -/
def known_labels : List String :=
  ["INSURANCE_SERVICE", "INSURANCE_PRODUCT", "CONTINUE CONVERSATION", "MORE", "OFF-TOPIC"]

/-- The classification system message (line 256). -/
def classification_system_message : String :=
  "You are a classification model. Return only one label: INSURANCE_SERVICE, INSURANCE_PRODUCT, CONTINUE CONVERSATION, MORE, OFF-TOPIC."

/-- The classification prompt (lines 212-247), an f-string over the user query and
the (possibly absent, Python-falsy) conversation history. -/
def classification_prompt (user_query : String) (chat_history : Option String) : String :=
  "\nYou are a highly accurate text classification model. \nDetermine which single label (from the set: INSURANCE_SERVICE, INSURANCE_PRODUCT, \nCONTINUE CONVERSATION, MORE, OFF-TOPIC) best fits this scenario, based on the User Query and the Conversation History.\n\nDefinitions and guidelines:\n\n1. CONTINUE CONVERSATION\n   - The user is clearly asking a follow-up question.\n   - Or user references details that were already mentioned in the conversation history.\n   - Example:\n       - \"Could you give me more information on insurance we talked about?\"\n       - \"Clarify the cost you mentioned earlier.\"\n       - \"You said something about life coverage; can you elaborate?\"\n       - If the conversation history included \"I want to buy insurance. Do you have life coverage?\" \n         and the new user query says \"tell me more about the first one,\" then it's classify to CONTINUE CONVERSATION.\n\n2. INSURANCE_SERVICE\n   - Specifically about insurance services such as \"ติดต่อสอบถาม\", \"เอกสาร\" , \"โปรโมชั่น\", \"กรอบระยะเวลาสำหรับการให้บริการ\",\"ประกันกลุ่ม\",\"ตรวจสอบผู้ขายประกัน\",\"ดาวน์โหลดแบบฟอร์มต่างๆ\",\"ค้นหาโรงพยาบาลคู่สัญญา\",\"ค้นหาสาขา\",\"บริการพิเศษ\",\"บริการเรียกร้องสินไหมทดแทน\",\"บริการด้านการพิจารณารับประกัน\",\"บริการผู้ถือกรมธรรม์\",\"บริการรับเรื่องร้องเรียน\",\"ข้อแนะนำในการแจ้งอุบัติเหตุ\",\"บริการตัวแทน - นายหน้า\", etc.\n\n3. INSURANCE_PRODUCT\n   - The user wants to buy, see, or compare insurance products such as life insurance or auto insurance policies.\n\n4. MORE\n   - The user specifically asks for additional products or variations beyond what was previously discussed.\n   - Common triggers might be phrases like \"Show me more products\" or \"What else do you have?\"\n\n5. OFF-TOPIC\n   - Anything not covered above, or the user’s query is irrelevant to insurance.\n\nReturn ONLY one label. Do not add explanations.\n\n------------------------------------\nUser Query: "
    ++ user_query ++ "\nConversation History: " ++ pyStrOrNone chat_history ++ "\n"

/-- `decide_search_path` (lines 210-270): build the classification prompt, acquire
both rate limiters, issue the chat call, then map the trimmed upper-cased response
to one of the five labels, defaulting to `OFF-TOPIC`.  `resp` is the provider's
response content. -/
def decide_search_path (cfg : Config) (resp : String) (user_query : String)
    (chat_history : Option String) : String × List Ev :=
  let prompt := classification_prompt user_query chat_history
  let path_decision := pyUpper (pyStrip resp)
  ((if path_decision ∈ known_labels then path_decision else "OFF-TOPIC"),
   [Ev.acquireSec, Ev.acquireMin,
    Ev.chatCall cfg.classify_model classification_system_message prompt])

/-- The answer-generation system prompt (lines 274-285). -/
def generate_answer_system_prompt : String :=
  "You are 'Subsin', a helpful and professional male insurance assistant for Thai Group Holdings Public Company Limited, covering two business units: 1) ประกันชีวิต SE Life (อาคเนย์ประกันชีวิต) and 2) ประกันภัย INSURE (อินทรประกันภัย).\n\n### Guidelines ###\n- ONLY use information from the provided 'Context','Conversation History' and 'User Question' when answering. Do not use outside knowledge.\n- Always address all important points from the context if they relate to the question.\n- If the user question is outside the provided context or no provided context or user question is not related to insurance product/service, respond briefly (≤ 30 tokens) and politely indicate you are unsure or request clarification.\n- If the user’s question is in Thai, respond in Thai (unless referencing specific names, products, or URLs that require English).\n- Keep responses clear and concise. Do not exceed 680 tokens.\n- Never make up information or speculate.\n### End Guidelines ###\n"

/-- The answer-generation user message (lines 286-289). -/
def generate_answer_user_prompt (query context : String) (chat_history : Option String) :
    String :=
  "\n    Conversation History: " ++ pyStrOrNone chat_history
    ++ "\n    Context: " ++ context ++ "\n    User Question: " ++ query ++ " "

/-- `generate_answer` (lines 273-302): build the persona prompt and user message,
acquire both rate limiters, issue the chat call, return the trimmed response. -/
def generate_answer (cfg : Config) (resp : String) (query context : String)
    (chat_history : Option String) : String × List Ev :=
  (pyStrip resp,
   [Ev.acquireSec, Ev.acquireMin,
    Ev.chatCall cfg.chat_model generate_answer_system_prompt
      (generate_answer_user_prompt query context chat_history)])

/-- Event classifiers. -/
def isChatEv : Ev → Bool
  | .chatCall _ _ _ => true
  | _ => false

def isAcquireEv : Ev → Bool
  | .acquireSec => true
  | .acquireMin => true
  | _ => false

def isSearchEv : Ev → Bool
  | .searchCall _ _ _ _ _ => true
  | _ => false

def isDelEv : Ev → Bool
  | .delHistory _ => true
  | _ => false

def isSaveEv : Ev → Bool
  | .saveHistory _ _ _ _ => true
  | _ => false

/-- A trace is chat-gated when every chat call is preceded (within the trace) by an
acquisition of the per-second limiter and one of the per-minute limiter.  The two
flags record which gates have been passed so far. -/
def gatedB : Bool → Bool → List Ev → Bool
  | _, _, [] => true
  | s, m, e :: rest =>
      match e with
      | .acquireSec => gatedB true m rest
      | .acquireMin => gatedB s true rest
      | .chatCall _ _ _ => s && m && gatedB s m rest
      | _ => gatedB s m rest

/-- Number of occurrences of `pat` as a contiguous substring (counted at every
start position). -/
def countOcc (pat : List Char) : List Char → ℕ
  | [] => 0
  | c :: rest => (if pat.isPrefixOf (c :: rest) then 1 else 0) + countOcc pat rest

/-- The text of a cached/returned search value. -/
def CVal.textOf : CVal → String
  | .txt s => s
  | .vec _ => ""

/-- Modelled from the spec's words (§4.4): each result becomes one block of
`"Field Label: value"` lines, one per selected field in fixed order, with the
trailing blank line after the URL field; the blocks are joined with the separator
line.  Used only for comparison against the code's formatting. -/
def spec_block_text (results : List ProductRow) : String :=
  joinSep "=================\n"
    (results.map fun r =>
      "Product Segment: " ++ r.Product_Segment ++ "\n"
        ++ "Product Name: " ++ r.Product_Name ++ "\n"
        ++ "Unique Point: " ++ r.Unique_Pros ++ "\n"
        ++ "Product Benefit: " ++ r.Benefit ++ "\n"
        ++ "Product Condition: " ++ r.Condition ++ "\n"
        ++ "Product Description: " ++ r.Product_Description ++ "\n"
        ++ "URL: " ++ r.Product_URL ++ "\n")

/-- Two argument tuples of `get_search_results` differing in exactly one
component. -/
def differExactlyOne (q₁ q₂ : String) (t₁ t₂ k₁ k₂ : ℤ) (s₁ s₂ : Bool) : Prop :=
  (q₁ ≠ q₂ ∧ t₁ = t₂ ∧ k₁ = k₂ ∧ s₁ = s₂)
    ∨ (q₁ = q₂ ∧ t₁ ≠ t₂ ∧ k₁ = k₂ ∧ s₁ = s₂)
    ∨ (q₁ = q₂ ∧ t₁ = t₂ ∧ k₁ ≠ k₂ ∧ s₁ = s₂)
    ∨ (q₁ = q₂ ∧ t₁ = t₂ ∧ k₁ = k₂ ∧ s₁ ≠ s₂)

/-- The property claimed of the key derivation: any single-component change of the
argument tuple changes the key. -/
def keyInjectiveProp (md5hex : String → String) : Prop :=
  ∀ q₁ q₂ t₁ t₂ k₁ k₂ s₁ s₂, differExactlyOne q₁ q₂ t₁ t₂ k₁ k₂ s₁ s₂ →
    search_cache_key md5hex q₁ t₁ k₁ s₁ ≠ search_cache_key md5hex q₂ t₂ k₂ s₂

/-- A concrete stand-in digest for closed counterexamples and witnesses.  The
statements using it do not depend on any property of the digest beyond it being a
function. -/
def md5id : String → String := fun s => s

/-- Concrete model names for closed counterexamples and witnesses. -/
def cfg0 : Config := ⟨"text-embedding", "typhoon-chat", "gpt-classify", "gpt-summary"⟩

/-- A trivial history store over the unit state, for closed counterexamples and
witnesses. -/
def hs0 : HistoryStore ℤ Unit :=
  ⟨fun _ _ => (), fun _ _ => "PRIOR", fun _ _ _ _ _ _ => ()⟩

/-- Concrete product rows for the formatting counterexample. -/
def prow1 : ProductRow := ⟨"A1", "B1", "C1", "D1", "E1", "F1", "G1"⟩

def prow2 : ProductRow := ⟨"A2", "B2", "C2", "D2", "E2", "F2", "G2"⟩

/-- A product-index provider returning the two rows above, and a service provider
returning nothing; embedding provider returning an empty vector. -/
def prodSearch2 : String → CVal → ℤ → ℤ → List ProductRow := fun _ _ _ _ => [prow1, prow2]

def svcSearch0 : String → CVal → ℤ → ℤ → List ServiceRow := fun _ _ _ _ => []

def emb0 : String → List ℚ := fun _ => []

/-! ## Theorems -/

/-- C3: for every raw chat-model response text, `decide_search_path` trims and
upper-cases it and returns it when it is one of the five known labels; any other
response text, including `"banana"`, yields the `OFF-TOPIC` label, so the result is
always a member of the five-label set and no input is an error. -/
theorem C3_classify_total (cfg : Config) (q : String) (h : Option String) :
    (∀ resp, (decide_search_path cfg resp q h).1 ∈ known_labels)
      ∧ (∀ resp, pyUpper (pyStrip resp) ∈ known_labels →
          (decide_search_path cfg resp q h).1 = pyUpper (pyStrip resp))
      ∧ (decide_search_path cfg "banana" q h).1 = "OFF-TOPIC" := by
  refine ⟨fun resp => ?_, fun resp hmem => ?_, ?_⟩
  · by_cases hmem : pyUpper (pyStrip resp) ∈ known_labels
    · simp only [decide_search_path, if_pos hmem]
      exact hmem
    · simp only [decide_search_path, if_neg hmem]
      decide
  · simp only [decide_search_path, if_pos hmem]
  · rfl

/-- C4: `summarize_text` is a no-op with no history effects when
`len(text) <= max_chars`, and performs exactly one history deletion and exactly one
history save when `len(text) > max_chars`. -/
theorem C4_summarize_frame {T σ : Type} (cfg : Config) (hs : HistoryStore T σ)
    (resp : String) (ts : T) (text : String) (max_chars : ℕ) (user_id : String) (h0 : σ) :
    (text.length ≤ max_chars →
        (summarize_text cfg hs resp ts text max_chars user_id h0).1 = text
          ∧ (summarize_text cfg hs resp ts text max_chars user_id h0).2.1 = h0
          ∧ ((summarize_text cfg hs resp ts text max_chars user_id h0).2.2.countP isDelEv) = 0
          ∧ ((summarize_text cfg hs resp ts text max_chars user_id h0).2.2.countP isSaveEv) = 0)
      ∧ (max_chars < text.length →
          ((summarize_text cfg hs resp ts text max_chars user_id h0).2.2.countP isDelEv) = 1
            ∧ ((summarize_text cfg hs resp ts text max_chars user_id h0).2.2.countP isSaveEv) = 1) := by
  constructor
  · intro hle
    simp [summarize_text, hle]
  · intro hgt
    have hni : ¬ text.length ≤ max_chars := by omega
    simp only [summarize_text, if_neg hni]
    simp [List.countP_cons, isDelEv, isSaveEv]

/-- Witness for C4 at concrete inputs: the short text is returned unchanged, the
long text produces exactly one deletion. -/
theorem C4_witness :
    ((summarize_text cfg0 hs0 "resp" 0 "ab" 5 "u" ()).1 = "ab")
      ∧ (((summarize_text cfg0 hs0 "resp" 0 "abcdefgh" 5 "u" ()).2.2.countP isDelEv) = 1) :=
  ⟨((C4_summarize_frame cfg0 hs0 "resp" 0 "ab" 5 "u" ()).1 (by decide)).1,
   ((C4_summarize_frame cfg0 hs0 "resp" 0 "abcdefgh" 5 "u" ()).2 (by decide)).1⟩

/-- C9: on an over-length input, `summarize_text` deletes the stored history for
`user_id` strictly before it reads the latest decision, so the decision tagged onto
the saved summary entry is the one `get_latest_decide` returns on the
already-deleted state. -/
theorem C9_delete_before_decide_read {T σ : Type} (cfg : Config) (hs : HistoryStore T σ)
    (resp : String) (ts : T) (text : String) (max_chars : ℕ) (user_id : String) (h0 : σ)
    (hgt : max_chars < text.length) :
    (summarize_text cfg hs resp ts text max_chars user_id h0).2.1
        = hs.save_chat_history (hs.del_chat_history h0 user_id) user_id "assistant"
            (pyStrip resp) ts (hs.get_latest_decide (hs.del_chat_history h0 user_id) user_id)
      ∧ (summarize_text cfg hs resp ts text max_chars user_id h0).2.2
        = [Ev.chatCall cfg.summary_model summarize_system_prompt text,
           Ev.delHistory user_id,
           Ev.getDecide user_id,
           Ev.saveHistory user_id "assistant" (pyStrip resp)
             (hs.get_latest_decide (hs.del_chat_history h0 user_id) user_id)] := by
  have hni : ¬ text.length ≤ max_chars := by omega
  constructor <;> simp only [summarize_text, if_neg hni]

/-- Witness for C9 at a concrete over-length input. -/
theorem C9_witness :
    (summarize_text cfg0 hs0 "r" 0 "abcdefgh" 1 "u" ()).2.2
      = [Ev.chatCall "gpt-summary" summarize_system_prompt "abcdefgh",
         Ev.delHistory "u", Ev.getDecide "u",
         Ev.saveHistory "u" "assistant" "r" "PRIOR"] :=
  (C9_delete_before_decide_read cfg0 hs0 "r" 0 "abcdefgh" 1 "u" () (by decide)).2

/-- C2 (amended): intent classification and final answer generation acquire both
rate limiters before their chat call, but the two summarization operations issue
their chat calls without acquiring either limiter. -/
theorem C2_gating_amended :
    (∀ (cfg : Config) (resp q : String) (h : Option String),
        gatedB false false (decide_search_path cfg resp q h).2 = true)
      ∧ (∀ (cfg : Config) (resp q ctx : String) (h : Option String),
          gatedB false false (generate_answer cfg resp q ctx h).2 = true)
      ∧ (∀ (T σ : Type) (cfg : Config) (hs : HistoryStore T σ) (resp : String) (ts : T)
            (text : String) (max_chars : ℕ) (user_id : String) (h0 : σ),
          max_chars < text.length →
            ((summarize_text cfg hs resp ts text max_chars user_id h0).2.2.countP isChatEv = 1
              ∧ (summarize_text cfg hs resp ts text max_chars user_id h0).2.2.countP isAcquireEv = 0))
      ∧ (∀ (cfg : Config) (resp nq ch : String),
          (summarize_context cfg resp nq ch).2.countP isChatEv = 1
            ∧ (summarize_context cfg resp nq ch).2.countP isAcquireEv = 0) := by
  refine ⟨fun cfg resp q h => rfl, fun cfg resp q ctx h => rfl, ?_, ?_⟩
  · intro T σ cfg hs resp ts text max_chars user_id h0 hgt
    have hni : ¬ text.length ≤ max_chars := by omega
    constructor <;>
      · simp only [summarize_text, if_neg hni]
        simp [List.countP_cons, isChatEv, isAcquireEv]
  · intro cfg resp nq ch
    constructor <;> simp [summarize_context, List.countP_cons, isChatEv, isAcquireEv]

/-- Witness for C2 (amended) at a concrete over-length summarization input. -/
theorem C2_witness :
    ((summarize_text cfg0 hs0 "x" (0 : ℤ) "abcdefgh" 1 "u" ()).2.2.countP isChatEv = 1)
      ∧ ((summarize_text cfg0 hs0 "x" (0 : ℤ) "abcdefgh" 1 "u" ()).2.2.countP isAcquireEv = 0) :=
  C2_gating_amended.2.2.1 ℤ Unit cfg0 hs0 "x" 0 "abcdefgh" 1 "u" () (by decide)

/-- C2 counterexample: the summarization operation's chat call is not preceded by
either rate-limiter acquisition — its trace is not chat-gated. -/
theorem C2_counterexample :
    gatedB false false (summarize_text cfg0 hs0 "resp" 0 "abcdefgh" 1 "u" ()).2.2 = false := by
  rfl

lemma Cache.get_set_self {T : Type} [LinearOrderedCommRing T] (mc : Cache T) (k : String)
    (v : CVal) (ttl : ℕ) (now t : T) (h : t < now + (ttl : T)) :
    Cache.get (Cache.set mc k v ttl now) k t = some v := by
  simp [Cache.get, Cache.set, List.find?, h]

lemma embed_no_search {T : Type} [LinearOrderedCommRing T] (cfg : Config)
    (md5hex : String → String) (emb : String → List ℚ) (text : String)
    (mc : Cache T) (now : T) :
    (embed_text cfg md5hex emb text mc now).2.2.countP isSearchEv = 0 := by
  simp only [embed_text]
  cases hg : Cache.get mc ("embed:" ++ md5hex (pyStrip (pyReplaceNl text))) now <;>
    simp [isSearchEv]

/-- C7: `embed_text` returns the stored value unchanged on a cache hit; on a miss it
calls the embedding provider with the normalized text (newlines collapsed to
spaces, surrounding whitespace stripped), stores the resulting vector under the
embedding key with a TTL of 24 hours (86400 seconds), and returns it; search
results are stored with a TTL of 1 hour (3600 seconds). -/
theorem C7_embed_gateway {T : Type} [LinearOrderedCommRing T] (cfg : Config)
    (md5hex : String → String) (emb : String → List ℚ) (text : String)
    (mc : Cache T) (now : T) :
    (∀ v, mc.get (embed_cache_key md5hex text) now = some v →
        embed_text cfg md5hex emb text mc now = (v, mc, []))
      ∧ (mc.get (embed_cache_key md5hex text) now = none →
          embed_text cfg md5hex emb text mc now
            = (CVal.vec (emb (embedNormalize text)),
               ⟨embed_cache_key md5hex text, CVal.vec (emb (embedNormalize text)),
                 now + (86400 : T)⟩ :: mc,
               [Ev.embCall cfg.embedding_model (embedNormalize text),
                Ev.cacheSet (embed_cache_key md5hex text) EMBED_CACHE_TTL]))
      ∧ EMBED_CACHE_TTL = 86400 ∧ SEARCH_CACHE_TTL = 3600 := by
  have hkey : embed_cache_key md5hex text = "embed:" ++ md5hex (pyStrip (pyReplaceNl text)) := rfl
  refine ⟨?_, ?_, rfl, rfl⟩
  · intro v hv
    rw [hkey] at hv
    simp only [embed_text, hv]
  · intro hv
    rw [hkey] at hv
    simp only [embed_text, hv]
    norm_num [Cache.set, EMBED_CACHE_TTL, embed_cache_key, embedNormalize]

/-- Witness for C7: a concrete miss stores the vector under the embedding key with
the 24-hour TTL and returns it. -/
theorem C7_witness :
    embed_text cfg0 md5id emb0 "a\nb" ([] : Cache ℤ) 0
      = (CVal.vec (emb0 (embedNormalize "a\nb")),
         ⟨embed_cache_key md5id "a\nb", CVal.vec (emb0 (embedNormalize "a\nb")),
           (0 : ℤ) + 86400⟩ :: [],
         [Ev.embCall cfg0.embedding_model (embedNormalize "a\nb"),
          Ev.cacheSet (embed_cache_key md5id "a\nb") EMBED_CACHE_TTL]) :=
  (C7_embed_gateway cfg0 md5id emb0 "a\nb" ([] : Cache ℤ) 0).2.1 rfl

/-- C8: two `search` calls with identical arguments, the first a cache miss and the
second before the search TTL has elapsed, return the same text; the vector-search
provider is invoked exactly once (by the first call) and the second call performs
no external effect. -/
theorem C8_search_idempotent {T : Type} [LinearOrderedCommRing T] (cfg : Config)
    (md5hex : String → String) (emb : String → List ℚ)
    (ps : String → CVal → ℤ → ℤ → List ProductRow)
    (ss : String → CVal → ℤ → ℤ → List ServiceRow)
    (query : String) (top_k skip_k : ℤ) (service : Bool) (mc : Cache T) (t₁ t₂ : T)
    (hmiss : mc.get (search_cache_key md5hex query top_k skip_k service) t₁ = none)
    (h12 : t₁ ≤ t₂) (httl : t₂ < t₁ + 3600) :
    (get_search_results cfg md5hex emb ps ss query top_k skip_k service
        (get_search_results cfg md5hex emb ps ss query top_k skip_k service mc t₁).2.1 t₂).1
      = (get_search_results cfg md5hex emb ps ss query top_k skip_k service mc t₁).1
    ∧ (get_search_results cfg md5hex emb ps ss query top_k skip_k service
        (get_search_results cfg md5hex emb ps ss query top_k skip_k service mc t₁).2.1 t₂).2.2
      = []
    ∧ (get_search_results cfg md5hex emb ps ss query top_k skip_k service mc t₁).2.2.countP
        isSearchEv = 1 := by
  have httl' : t₂ < t₁ + ((SEARCH_CACHE_TTL : ℕ) : T) := by
    have hc : ((SEARCH_CACHE_TTL : ℕ) : T) = 3600 := by norm_num [SEARCH_CACHE_TTL]
    rw [hc]; exact httl
  simp only [get_search_results, hmiss]
  rw [Cache.get_set_self _ _ _ _ _ _ httl']
  refine ⟨rfl, rfl, ?_⟩
  simp [List.countP_append, List.countP_cons, isSearchEv, embed_no_search]

/-- Witness for C8 at concrete inputs over `T = ℤ`. -/
theorem C8_witness :
    (get_search_results cfg0 md5id emb0 prodSearch2 svcSearch0 "life insurance" 3 0 false
        (get_search_results cfg0 md5id emb0 prodSearch2 svcSearch0 "life insurance" 3 0 false
          ([] : Cache ℤ) 0).2.1 10).1
      = (get_search_results cfg0 md5id emb0 prodSearch2 svcSearch0 "life insurance" 3 0 false
          ([] : Cache ℤ) 0).1
    ∧ (get_search_results cfg0 md5id emb0 prodSearch2 svcSearch0 "life insurance" 3 0 false
        ([] : Cache ℤ) 0).2.2.countP isSearchEv = 1 :=
  ⟨(C8_search_idempotent cfg0 md5id emb0 prodSearch2 svcSearch0 "life insurance" 3 0 false
      ([] : Cache ℤ) 0 10 rfl (by decide) (by decide)).1,
   (C8_search_idempotent cfg0 md5id emb0 prodSearch2 svcSearch0 "life insurance" 3 0 false
      ([] : Cache ℤ) 0 10 rfl (by decide) (by decide)).2.2⟩

/-- C10: on a search cache miss the provider request carries the original,
un-stripped query (`search_text=query`) while the cache key is derived from the
stripped query; queries differing only in surrounding whitespace (equal once
stripped) share a key, and a later call with such a variant is served the text
cached for the first call's provider request, with no further provider call. -/
theorem C10_unstripped_request_stripped_key {T : Type} [LinearOrderedCommRing T]
    (cfg : Config) (md5hex : String → String) (emb : String → List ℚ)
    (ps : String → CVal → ℤ → ℤ → List ProductRow)
    (ss : String → CVal → ℤ → ℤ → List ServiceRow)
    (q₁ q₂ : String) (top_k skip_k : ℤ) (service : Bool) (mc : Cache T) (t₁ t₂ : T)
    (hstrip : pyStrip q₂ = pyStrip q₁)
    (hmiss : mc.get (search_cache_key md5hex q₁ top_k skip_k service) t₁ = none)
    (h12 : t₁ ≤ t₂) (httl : t₂ < t₁ + 3600) :
    search_cache_key md5hex q₂ top_k skip_k service
        = search_cache_key md5hex q₁ top_k skip_k service
    ∧ Ev.searchCall q₁ 100 top_k skip_k service
        ∈ (get_search_results cfg md5hex emb ps ss q₁ top_k skip_k service mc t₁).2.2
    ∧ (get_search_results cfg md5hex emb ps ss q₁ top_k skip_k service mc t₁).2.2.countP
        isSearchEv = 1
    ∧ (get_search_results cfg md5hex emb ps ss q₂ top_k skip_k service
        (get_search_results cfg md5hex emb ps ss q₁ top_k skip_k service mc t₁).2.1 t₂).1
      = (get_search_results cfg md5hex emb ps ss q₁ top_k skip_k service mc t₁).1
    ∧ (get_search_results cfg md5hex emb ps ss q₂ top_k skip_k service
        (get_search_results cfg md5hex emb ps ss q₁ top_k skip_k service mc t₁).2.1 t₂).2.2
      = [] := by
  have hkeys : search_cache_key md5hex q₂ top_k skip_k service
      = search_cache_key md5hex q₁ top_k skip_k service := by
    simp [search_cache_key, hstrip]
  have httl' : t₂ < t₁ + ((SEARCH_CACHE_TTL : ℕ) : T) := by
    have hc : ((SEARCH_CACHE_TTL : ℕ) : T) = 3600 := by norm_num [SEARCH_CACHE_TTL]
    rw [hc]; exact httl
  refine ⟨hkeys, ?_, ?_, ?_, ?_⟩
  · simp only [get_search_results, hmiss]
    simp
  · simp only [get_search_results, hmiss]
    simp [List.countP_append, List.countP_cons, isSearchEv, embed_no_search]
  · simp only [get_search_results, hmiss, hkeys]
    rw [Cache.get_set_self _ _ _ _ _ _ httl']
  · simp only [get_search_results, hmiss, hkeys]
    rw [Cache.get_set_self _ _ _ _ _ _ httl']

/-- Witness for C10: a leading/trailing-whitespace variant of the query is served
from the cache entry of the original. -/
theorem C10_witness :
    (get_search_results cfg0 md5id emb0 prodSearch2 svcSearch0 " life insurance " 3 0 false
        (get_search_results cfg0 md5id emb0 prodSearch2 svcSearch0 "life insurance" 3 0 false
          ([] : Cache ℤ) 0).2.1 10).1
      = (get_search_results cfg0 md5id emb0 prodSearch2 svcSearch0 "life insurance" 3 0 false
          ([] : Cache ℤ) 0).1
    ∧ Ev.searchCall "life insurance" 100 3 0 false
        ∈ (get_search_results cfg0 md5id emb0 prodSearch2 svcSearch0 "life insurance" 3 0 false
            ([] : Cache ℤ) 0).2.2 :=
  ⟨(C10_unstripped_request_stripped_key cfg0 md5id emb0 prodSearch2 svcSearch0
      "life insurance" " life insurance " 3 0 false ([] : Cache ℤ) 0 10
      (by decide) rfl (by decide) (by decide)).2.2.2.1,
   (C10_unstripped_request_stripped_key cfg0 md5id emb0 prodSearch2 svcSearch0
      "life insurance" " life insurance " 3 0 false ([] : Cache ℤ) 0 10
      (by decide) rfl (by decide) (by decide)).2.1⟩

lemma foldl_append_eq_flatMap {α β : Type} (f : α → List β) (l : List α) :
    ∀ acc : List β, l.foldl (fun a x => a ++ f x) acc = acc ++ l.flatMap f := by
  induction l with
  | nil => intro acc; simp
  | cons x rest ih => intro acc; simp [List.foldl_cons, ih (acc ++ f x), List.append_assoc]

lemma print_results_eq_flatMap (results : List ProductRow) :
    print_results results = results.flatMap productLines := by
  have hbody : (fun (answer : List String) (result : ProductRow) =>
      answer ++ ["Product Segment: " ++ result.Product_Segment]
        ++ ["Product Name: " ++ result.Product_Name]
        ++ ["Unique Point: " ++ result.Unique_Pros]
        ++ ["Product Benefit: " ++ result.Benefit]
        ++ ["Product Condition: " ++ result.Condition]
        ++ ["Product Description: " ++ result.Product_Description]
        ++ ["URL: " ++ result.Product_URL ++ "\n"])
      = fun (answer : List String) (result : ProductRow) => answer ++ productLines result := by
    funext answer result
    simp [productLines]
  unfold print_results
  rw [hbody]
  simpa using foldl_append_eq_flatMap productLines results []

lemma print_results_service_eq_flatMap (results : List ServiceRow) :
    print_results_service results = results.flatMap serviceLines := by
  have hbody : (fun (answer : List String) (result : ServiceRow) =>
      answer ++ ["Service Segment: " ++ result.Service_Segment]
        ++ ["Service Name: " ++ result.Service_Name]
        ++ ["Service Detail: " ++ result.Service_Detail]
        ++ ["URL: " ++ result.Service_URL ++ "\n"])
      = fun (answer : List String) (result : ServiceRow) => answer ++ serviceLines result := by
    funext answer result
    simp [serviceLines]
  unfold print_results_service
  rw [hbody]
  simpa using foldl_append_eq_flatMap serviceLines results []

lemma print_results_length (results : List ProductRow) :
    (print_results results).length = 7 * results.length := by
  rw [print_results_eq_flatMap]
  induction results with
  | nil => simp
  | cons r rest ih => simp only [List.flatMap_cons, List.length_append, List.length_cons, ih,
      productLines, List.length_nil]; omega

lemma print_results_service_length (results : List ServiceRow) :
    (print_results_service results).length = 4 * results.length := by
  rw [print_results_service_eq_flatMap]
  induction results with
  | nil => simp
  | cons r rest ih => simp only [List.flatMap_cons, List.length_append, List.length_cons, ih,
      serviceLines, List.length_nil]; omega

/-- C1 (amended): on a cache miss the returned text is the separator-join of the
flattened per-field line list: each of the `n` product rows contributes its 7
`"Field Label: value"` lines in fixed order (4 for service rows), with the URL line
carrying a trailing newline, and the separator line is inserted between every two
adjacent lines of the flattened list — not only between row blocks. -/
theorem C1_formatting_amended {T : Type} [LinearOrderedCommRing T] (cfg : Config)
    (md5hex : String → String) (emb : String → List ℚ)
    (ps : String → CVal → ℤ → ℤ → List ProductRow)
    (ss : String → CVal → ℤ → ℤ → List ServiceRow)
    (query : String) (top_k skip_k : ℤ) (mc : Cache T) (now : T)
    (hmiss : mc.get (search_cache_key md5hex query top_k skip_k false) now = none) :
    (get_search_results cfg md5hex emb ps ss query top_k skip_k false mc now).1
      = CVal.txt (joinSep "=================\n"
          (print_results (ps query (embed_text cfg md5hex emb query mc now).1 top_k skip_k)))
    ∧ (∀ rows, print_results rows = rows.flatMap productLines
        ∧ (print_results rows).length = 7 * rows.length)
    ∧ (∀ rows, print_results_service rows = rows.flatMap serviceLines
        ∧ (print_results_service rows).length = 4 * rows.length) := by
  refine ⟨?_, fun rows => ⟨print_results_eq_flatMap rows, print_results_length rows⟩,
    fun rows => ⟨print_results_service_eq_flatMap rows, print_results_service_length rows⟩⟩
  simp only [get_search_results, hmiss]
  simp

/-- Witness for C1 (amended) at concrete inputs over `T = ℤ`. -/
theorem C1_witness :
    (get_search_results cfg0 md5id emb0 prodSearch2 svcSearch0 "life insurance" 3 0 false
        ([] : Cache ℤ) 0).1
      = CVal.txt (joinSep "=================\n"
          (print_results (prodSearch2 "life insurance"
            (embed_text cfg0 md5id emb0 "life insurance" ([] : Cache ℤ) 0).1 3 0))) :=
  (C1_formatting_amended cfg0 md5id emb0 prodSearch2 svcSearch0 "life insurance" 3 0
    ([] : Cache ℤ) 0 rfl).1

/-- C1 counterexample: with a product index returning 2 rows, the returned text is
not 2 separator-joined blocks — it differs from the block form built from the
spec's words, and the separator occurs 13 times (between every two adjacent field
lines), not exactly once between the two blocks. -/
theorem C1_counterexample :
    (get_search_results cfg0 md5id emb0 prodSearch2 svcSearch0 "life insurance" 3 0 false
        ([] : Cache ℤ) 0).1.textOf
      ≠ spec_block_text [prow1, prow2]
    ∧ countOcc ("=================\n".data)
        ((get_search_results cfg0 md5id emb0 prodSearch2 svcSearch0 "life insurance" 3 0 false
          ([] : Cache ℤ) 0).1.textOf.data) = 13
    ∧ (13 : ℕ) ≠ 2 - 1 := by
  exact ⟨by decide, by decide, by decide⟩

lemma decDigit_ge9 (d : ℕ) (h : 9 ≤ d) : decDigit d = '9' := by
  unfold decDigit
  repeat rw [if_neg (by omega)]

lemma decDigit_ne_dash (d : ℕ) : decDigit d ≠ '-' := by
  by_cases h : d < 9
  · interval_cases d <;> decide
  · rw [decDigit_ge9 d (by omega)]; decide

lemma decDigit_val (d : ℕ) (h : d < 10) : (decDigit d).toNat - 48 = d := by
  interval_cases d <;> decide

lemma decValRev_decDigitsAux : ∀ (fuel n : ℕ), n < 10 ^ fuel →
    decValRev (decDigitsAux fuel n) = n := by
  intro fuel
  induction fuel with
  | zero =>
      intro n h
      simp only [pow_zero, Nat.lt_one_iff] at h
      subst h; rfl
  | succ f ih =>
      intro n h
      by_cases h10 : n < 10
      · simp only [decDigitsAux, if_pos h10, decValRev]
        rw [decDigit_val n h10]
        omega
      · simp only [decDigitsAux, if_neg h10, decValRev]
        have hdiv : n / 10 < 10 ^ f := by
          have hp : n < 10 ^ f * 10 := by
            rw [← pow_succ]; exact h
          omega
        rw [decDigit_val (n % 10) (Nat.mod_lt n (by omega)), ih (n / 10) hdiv]
        omega

lemma natDecStr_inj {m n : ℕ} (h : natDecStr m = natDecStr n) : m = n := by
  have hb : (1 : ℕ) < 10 := by norm_num
  have hm : m < 10 ^ (m + 1) :=
    lt_of_lt_of_le (Nat.lt_pow_self hb m) (Nat.pow_le_pow_right (by norm_num) (Nat.le_succ m))
  have hn : n < 10 ^ (n + 1) :=
    lt_of_lt_of_le (Nat.lt_pow_self hb n) (Nat.pow_le_pow_right (by norm_num) (Nat.le_succ n))
  have hdd : decDigitsAux (m + 1) m = decDigitsAux (n + 1) n := by
    have h' := congrArg List.reverse h
    simpa [natDecStr] using h'
  have h1 := decValRev_decDigitsAux (m + 1) m hm
  have h2 := decValRev_decDigitsAux (n + 1) n hn
  rw [hdd, h2] at h1
  exact h1.symm

lemma mem_decDigitsAux : ∀ (fuel n : ℕ) (c : Char), c ∈ decDigitsAux fuel n →
    ∃ d, c = decDigit d := by
  intro fuel
  induction fuel with
  | zero => intro n c hc; simp [decDigitsAux] at hc
  | succ f ih =>
      intro n c hc
      by_cases h10 : n < 10
      · simp only [decDigitsAux, if_pos h10, List.mem_singleton] at hc
        exact ⟨n, hc⟩
      · simp only [decDigitsAux, if_neg h10, List.mem_cons] at hc
        rcases hc with hc | hc
        · exact ⟨n % 10, hc⟩
        · exact ih _ c hc

lemma natDecStr_ne_nil (n : ℕ) : natDecStr n ≠ [] := by
  unfold natDecStr decDigitsAux
  split <;> simp

lemma natDecStr_no_dash (n : ℕ) (c : Char) (hc : c ∈ natDecStr n) : c ≠ '-' := by
  unfold natDecStr at hc
  rcases mem_decDigitsAux _ _ c (List.mem_reverse.mp hc) with ⟨d, hd⟩
  rw [hd]
  exact decDigit_ne_dash d

lemma pyIntStr_injective : Function.Injective pyIntStr := by
  intro i j h
  unfold pyIntStr at h
  by_cases hi : i < 0 <;> by_cases hj : j < 0
  · rw [if_pos hi, if_pos hj] at h
    have hd : '-' :: natDecStr i.natAbs = '-' :: natDecStr j.natAbs := congrArg String.data h
    have := natDecStr_inj (List.tail_eq_of_cons_eq hd)
    omega
  · rw [if_pos hi, if_neg hj] at h
    have hd : '-' :: natDecStr i.natAbs = natDecStr j.natAbs := congrArg String.data h
    have hmem : '-' ∈ natDecStr j.natAbs := by
      rw [← hd]; exact List.mem_cons_self _ _
    exact absurd rfl (natDecStr_no_dash _ _ hmem)
  · rw [if_neg hi, if_pos hj] at h
    have hd : natDecStr i.natAbs = '-' :: natDecStr j.natAbs := congrArg String.data h
    have hmem : '-' ∈ natDecStr i.natAbs := by
      rw [hd]; exact List.mem_cons_self _ _
    exact absurd rfl (natDecStr_no_dash _ _ hmem)
  · rw [if_neg hi, if_neg hj] at h
    have := natDecStr_inj (show natDecStr i.natAbs = natDecStr j.natAbs from congrArg String.data h)
    omega

lemma pyIntStr_data_inj {i j : ℤ} (h : (pyIntStr i).data = (pyIntStr j).data) : i = j :=
  pyIntStr_injective (congrArg String.mk h)

/-- C6 counterexample: the tuples `(" a", 3, 0, false)` and `("a", 3, 0, false)`
differ in exactly one component (the query), yet their search cache keys coincide,
because the key is derived from the stripped query.  The failure is independent of
the digest function. -/
theorem C6_counterexample : ¬ keyInjectiveProp md5id := by
  intro hP
  exact hP " a" "a" 3 3 0 0 false false (Or.inl ⟨by decide, rfl, rfl, rfl⟩) (by decide)

/-- C6 (amended): changing `top_k`, `skip_k` or `is_service` alone always changes
the search cache key; changing the query changes the key exactly when the digest of
the stripped query changes — in particular queries that agree after stripping
surrounding whitespace yield identical keys. -/
theorem C6_key_distinctness_amended (md5hex : String → String) (q q' : String)
    (t t' k k' : ℤ) (s : Bool) :
    (t ≠ t' → search_cache_key md5hex q t k s ≠ search_cache_key md5hex q t' k s)
    ∧ (k ≠ k' → search_cache_key md5hex q t k s ≠ search_cache_key md5hex q t k' s)
    ∧ (search_cache_key md5hex q t k true ≠ search_cache_key md5hex q' t' k' false)
    ∧ (pyStrip q = pyStrip q' →
        search_cache_key md5hex q t k s = search_cache_key md5hex q' t k s)
    ∧ (md5hex (pyStrip q) ≠ md5hex (pyStrip q') →
        search_cache_key md5hex q t k s ≠ search_cache_key md5hex q' t k s) := by
  refine ⟨?_, ?_, ?_, ?_, ?_⟩
  · intro hne he
    apply hne
    apply pyIntStr_injective
    have hd := congrArg String.data he
    simp only [search_cache_key, String.data_append, List.append_assoc] at hd
    have h1 := List.append_cancel_left hd
    have h2 := List.append_cancel_left h1
    have h3 := List.append_cancel_left h2
    have h4 := List.append_cancel_right h3
    exact congrArg String.mk (by simpa using h4)
  · intro hne he
    apply hne
    apply pyIntStr_injective
    have hd := congrArg String.data he
    simp only [search_cache_key, String.data_append, List.append_assoc] at hd
    have h1 := List.append_cancel_left hd
    have h2 := List.append_cancel_left h1
    have h3 := List.append_cancel_left h2
    have h4 := List.append_cancel_left h3
    have h5 := List.append_cancel_left h4
    exact congrArg String.mk (by simpa using h5)
  · intro he
    have hd := congrArg (fun s : String => s.data.take 11) he
    simp only [search_cache_key, if_true, if_false, String.data_append,
      List.append_assoc] at hd
    rw [List.take_left' (by decide), List.take_left' (by decide)] at hd
    exact absurd hd (by decide)
  · intro hq
    simp [search_cache_key, hq]
  · intro hne he
    apply hne
    have hd := congrArg String.data he
    simp only [search_cache_key, String.data_append, List.append_assoc] at hd
    have h1 := List.append_cancel_left hd
    have h2 := List.append_cancel_right h1
    exact congrArg String.mk (by simpa using h2)

/-- Witness for C6 (amended): concrete distinctness under `top_k`, `skip_k` and
index changes, and a concrete whitespace collision. -/
theorem C6_witness :
    (search_cache_key md5id "a" 3 0 false ≠ search_cache_key md5id "a" 4 0 false)
    ∧ (search_cache_key md5id "a" 3 0 false ≠ search_cache_key md5id "a" 3 1 false)
    ∧ (search_cache_key md5id "a" 3 0 true ≠ search_cache_key md5id "a" 3 0 false)
    ∧ (search_cache_key md5id " a" 3 0 false = search_cache_key md5id "a" 3 0 false) :=
  ⟨(C6_key_distinctness_amended md5id "a" "a" 3 4 0 0 false).1 (by decide),
   (C6_key_distinctness_amended md5id "a" "a" 3 3 0 1 false).2.1 (by decide),
   (C6_key_distinctness_amended md5id "a" "a" 3 3 0 0 false).2.2.1,
   (C6_key_distinctness_amended md5id " a" "a" 3 3 0 0 false).2.2.2.1 (by decide)⟩


lemma length_filter_mono {α : Type} (p q : α → Bool) (l : List α)
    (h : ∀ a ∈ l, p a = true → q a = true) :
    (l.filter p).length ≤ (l.filter q).length := by
  induction l with
  | nil => simp
  | cons a t ih =>
      have ih' := ih (fun x hx hp => h x (List.mem_cons_of_mem a hx) hp)
      rw [List.filter_cons, List.filter_cons]
      by_cases hpa : p a = true
      · rw [if_pos hpa, if_pos (h a (List.mem_cons_self a t) hpa)]
        simp only [List.length_cons]
        omega
      · rw [if_neg hpa]
        split
        · simp only [List.length_cons]
          omega
        · exact ih'

lemma windowCount_antitone {T : Type} [LinearOrderedCommRing T] (rl : RateLimiter T)
    (t₁ t₂ : T) (h : t₁ ≤ t₂) : windowCount rl t₂ ≤ windowCount rl t₁ := by
  apply length_filter_mono
  intro a ha hpa
  simp only [decide_eq_true_eq] at hpa ⊢
  linarith

lemma acquire_crash {T : Type} [LinearOrderedCommRing T] (rl : RateLimiter T) (now : T)
    (hk : rl.calls.filter (fun t => decide (now - rl.period < t)) = [])
    (hlen : rl.max_calls = 0) :
    rl.acquire now = ({ rl with calls := [] }, none) := by
  simp only [RateLimiter.acquire, hk]
  rw [if_pos (by omega)]

lemma acquire_full {T : Type} [LinearOrderedCommRing T] (rl : RateLimiter T) (now t0 : T)
    (ktail : List T)
    (hk : rl.calls.filter (fun t => decide (now - rl.period < t)) = t0 :: ktail)
    (hlen : rl.max_calls ≤ (t0 :: ktail).length) :
    rl.acquire now
      = ({ rl with calls := (t0 :: ktail) ++ [now + (rl.period - (now - t0))] },
         some (now + (rl.period - (now - t0)))) := by
  simp only [RateLimiter.acquire, hk]
  rw [if_pos hlen]

lemma acquire_free {T : Type} [LinearOrderedCommRing T] (rl : RateLimiter T) (now : T)
    (hlen : ¬ rl.max_calls ≤ (rl.calls.filter (fun t => decide (now - rl.period < t))).length) :
    rl.acquire now
      = ({ rl with calls := (rl.calls.filter (fun t => decide (now - rl.period < t))) ++ [now] },
         some now) := by
  simp only [RateLimiter.acquire]
  rw [if_neg hlen]

lemma acquire_step {T : Type} [LinearOrderedCommRing T] (rl : RateLimiter T) (clock now : T)
    (hp : 0 < rl.period) (hc : clock ≤ now) (hw : windowCount rl clock ≤ rl.max_calls) :
    windowCount (rl.acquire now).1 (nextClock rl now) ≤ rl.max_calls
    ∧ clock ≤ nextClock rl now
    ∧ (rl.acquire now).1.max_calls = rl.max_calls
    ∧ (rl.acquire now).1.period = rl.period := by
  have hkept : ((rl.calls.filter fun t => decide (now - rl.period < t)).length)
      ≤ windowCount rl clock := by
    apply length_filter_mono
    intro a ha hpa
    simp only [decide_eq_true_eq] at hpa ⊢
    linarith
  rcases le_or_lt rl.max_calls ((rl.calls.filter fun t => decide (now - rl.period < t)).length)
    with hfull | hfree
  · rcases hkcase : rl.calls.filter (fun t => decide (now - rl.period < t))
      with _ | ⟨t0, ktail⟩
    · rw [hkcase] at hfull
      simp only [List.length_nil, Nat.le_zero] at hfull
      have hacq := acquire_crash rl now hkcase hfull
      have hnc : nextClock rl now = now := by simp only [nextClock, hacq]
      rw [hacq, hnc]
      refine ⟨?_, hc, rfl, rfl⟩
      simp [windowCount]
    · rw [hkcase] at hfull
      have ht0 : now - rl.period < t0 := by
        have hmem : t0 ∈ rl.calls.filter (fun t => decide (now - rl.period < t)) := by
          rw [hkcase]; exact List.mem_cons_self _ _
        simpa using List.of_mem_filter hmem
      have hacq := acquire_full rl now t0 ktail hkcase hfull
      have hnc : nextClock rl now = now + (rl.period - (now - t0)) := by
        simp only [nextClock, hacq]
      rw [hacq, hnc]
      refine ⟨?_, by linarith, rfl, rfl⟩
      have h4 : ktail.length + 1 ≤ rl.max_calls := by
        have hx := le_trans (le_of_eq (congrArg List.length hkcase.symm)) hkept
        simp only [List.length_cons] at hx
        omega
      have h3 : (ktail.filter fun x => decide (t0 < x)).length ≤ ktail.length :=
        List.length_filter_le _ _
      have hrec : now + (rl.period - (now - t0)) - rl.period = t0 := by ring
      have h1 : ¬ (t0 < t0) := lt_irrefl t0
      have h2 : t0 < now + (rl.period - (now - t0)) := by linarith
      simp only [windowCount, hrec]
      simp [List.filter_append, List.filter_cons, h1, h2]
      omega
  · have hacq := acquire_free rl now (by omega)
    have hnc : nextClock rl now = now := by simp only [nextClock, hacq]
    rw [hacq, hnc]
    refine ⟨?_, hc, rfl, rfl⟩
    have h2 : now - rl.period < now := by linarith
    simp only [windowCount]
    simp [List.filter_append, List.filter_filter, h2]
    omega

lemma runAcquires_inv {T : Type} [LinearOrderedCommRing T] :
    ∀ (nows : List T) (rl : RateLimiter T) (clock : T), 0 < rl.period →
      admissibleB rl clock nows = true → windowCount rl clock ≤ rl.max_calls →
      windowCount (runAcquires rl clock nows).1 (runAcquires rl clock nows).2 ≤ rl.max_calls
        ∧ (runAcquires rl clock nows).1.max_calls = rl.max_calls
        ∧ (runAcquires rl clock nows).1.period = rl.period := by
  intro nows
  induction nows with
  | nil =>
      intro rl clock hp hadm hw
      exact ⟨hw, rfl, rfl⟩
  | cons now rest ih =>
      intro rl clock hp hadm hw
      simp only [admissibleB, Bool.and_eq_true, decide_eq_true_eq] at hadm
      obtain ⟨hcn, hadm'⟩ := hadm
      obtain ⟨hw', hcl, hmax, hper⟩ := acquire_step rl clock now hp hcn hw
      simp only [runAcquires]
      have hres := ih (rl.acquire now).1 (nextClock rl now) (by rw [hper]; exact hp) hadm'
        (by rw [hmax]; exact hw')
      refine ⟨?_, ?_, ?_⟩
      · exact le_of_le_of_eq hres.1 hmax
      · rw [hres.2.1, hmax]
      · rw [hres.2.2, hper]

/-- C5: for every limiter as constructed (empty timestamp list) and every admissible
sequence of acquires (wall-clock time never running backward), at no point from the
last recording on do more than `max_calls` recorded timestamps newer than `period`
seconds exist in the window; and a call recorded at `t = 0` is evicted by any
acquire entered strictly after `t = period`, so it no longer counts toward the
limit. -/
theorem C5_rate_window_invariant {T : Type} [LinearOrderedCommRing T]
    (max_calls : ℕ) (period : T) (hp : 0 < period) (nows : List T)
    (hadm : admissibleB (⟨max_calls, period, []⟩ : RateLimiter T) 0 nows = true) :
    (∀ t, (runAcquires (⟨max_calls, period, []⟩ : RateLimiter T) 0 nows).2 ≤ t →
        windowCount (runAcquires (⟨max_calls, period, []⟩ : RateLimiter T) 0 nows).1 t
          ≤ max_calls)
    ∧ (∀ (rl : RateLimiter T) (now : T), 0 < rl.period → rl.period < now →
        (0 : T) ∉ ((rl.acquire now).1).calls) := by
  constructor
  · intro t ht
    have h0 : windowCount (⟨max_calls, period, []⟩ : RateLimiter T) 0 ≤ max_calls := by
      simp [windowCount]
    obtain ⟨h1, h2, h3⟩ := runAcquires_inv nows ⟨max_calls, period, []⟩ 0 hp hadm h0
    exact le_trans (windowCount_antitone _ _ t ht) h1
  · intro rl now hp' hnow hmem
    have hinkept : ∀ x ∈ rl.calls.filter (fun t => decide (now - rl.period < t)),
        (0 : T) < x := by
      intro x hx
      have hfx := List.of_mem_filter hx
      simp only [decide_eq_true_eq] at hfx
      linarith
    rcases le_or_lt rl.max_calls
        ((rl.calls.filter fun t => decide (now - rl.period < t)).length) with hfull | hfree
    · rcases hkcase : rl.calls.filter (fun t => decide (now - rl.period < t))
        with _ | ⟨t0, ktail⟩
      · rw [hkcase] at hfull
        simp only [List.length_nil, Nat.le_zero] at hfull
        rw [acquire_crash rl now hkcase hfull] at hmem
        simp at hmem
      · rw [hkcase] at hfull
        have ht0 : now - rl.period < t0 := by
          have hm : t0 ∈ rl.calls.filter (fun t => decide (now - rl.period < t)) := by
            rw [hkcase]; exact List.mem_cons_self _ _
          simpa using List.of_mem_filter hm
        rw [acquire_full rl now t0 ktail hkcase hfull] at hmem
        simp only [List.mem_append, List.mem_singleton] at hmem
        rcases hmem with hmem | hmem
        · exact absurd (hinkept 0 (by rw [hkcase]; exact hmem)) (lt_irrefl 0)
        · have hpos : (0 : T) < now + (rl.period - (now - t0)) := by linarith
          rw [← hmem] at hpos
          exact absurd hpos (lt_irrefl 0)
    · rw [acquire_free rl now (by omega)] at hmem
      simp only [List.mem_append, List.mem_singleton] at hmem
      rcases hmem with hmem | hmem
      · exact absurd (hinkept 0 hmem) (lt_irrefl 0)
      · have hpos : (0 : T) < now := by linarith
        rw [← hmem] at hpos
        exact absurd hpos (lt_irrefl 0)

/-- Witness for C5 over `T = ℤ`: six back-to-back acquires on the 5-per-second
limiter keep the fresh-window count at or below 5, and a call recorded at 0 is
evicted by an acquire entered at time 2 > period = 1. -/
theorem C5_witness :
    windowCount (runAcquires (⟨5, 1, []⟩ : RateLimiter ℤ) 0 [0, 0, 0, 0, 0, 0]).1
        (runAcquires (⟨5, 1, []⟩ : RateLimiter ℤ) 0 [0, 0, 0, 0, 0, 0]).2 ≤ 5
    ∧ (0 : ℤ) ∉ (((⟨5, 1, [0]⟩ : RateLimiter ℤ).acquire 2).1).calls :=
  ⟨(C5_rate_window_invariant 5 1 (by decide) [0, 0, 0, 0, 0, 0] (by decide)).1 _ (le_refl _),
   (C5_rate_window_invariant 5 1 (by decide) [] rfl).2 ⟨5, 1, [0]⟩ 2 (by decide) (by decide)⟩

/-- Witness for C3: a recognized label surrounded by whitespace and in lower case
is returned normalized, and an unrecognized response maps to `OFF-TOPIC`. -/
theorem C3_witness :
    (decide_search_path cfg0 " insurance_product " "q" none).1 = "INSURANCE_PRODUCT"
    ∧ (decide_search_path cfg0 "banana" "q" none).1 = "OFF-TOPIC" := by
  constructor
  · rw [(C3_classify_total cfg0 "q" none).2.1 " insurance_product " (by decide)]
    decide
  · exact (C3_classify_total cfg0 "q" none).2.2
